import Mathlib

/-!
Shallow embedding of the OzonLogistics ETL pipeline (the OzonApi
repository): row validators, row transformers, entity loaders and the run
orchestrator, together with theorems settling the specification claims
C1 to C10.  Each definition is translated from the Python source file
named in its doc comment.
-/

namespace OzonEtl

/-- A single cell of a tabular record as handed to validators and
transformers by the pandas readers: a missing value (NaN), a text value,
or a numeric value.  Numeric cells carry exact rationals; no claim settled
here depends on the binary floating-point representation of a cell. -/
inductive Val where
  | na : Val
  | str (s : String) : Val
  | num (q : ℚ) : Val
deriving DecidableEq, Repr

/-- Association-list lookup with first-match semantics; models dict.get
on the (duplicate-free) Python dict literals of config/etl_config.py and
the run-time mappings built by the loaders. -/
def alook {α β : Type} [DecidableEq α] (k : α) : List (α × β) → Option β
  | [] => none
  | (a, b) :: t => if a = k then some b else alook k t

theorem alook_mem {α β : Type} [DecidableEq α] {k : α} {b : β} :
    ∀ {l : List (α × β)}, alook k l = some b → (k, b) ∈ l := by
  intro l
  induction l with
  | nil => intro h; simp [alook] at h
  | cons p t ih =>
    intro h
    obtain ⟨a, b0⟩ := p
    by_cases hak : a = k
    · subst hak
      simp [alook] at h
      simp [h]
    · simp [alook, hak] at h
      exact List.mem_cons_of_mem _ (ih h)

/-- ASCII lower-to-upper character table. -/
def upPairs : List (Char × Char) :=
  [('a', 'A'), ('b', 'B'), ('c', 'C'), ('d', 'D'), ('e', 'E'), ('f', 'F'),
   ('g', 'G'), ('h', 'H'), ('i', 'I'), ('j', 'J'), ('k', 'K'), ('l', 'L'),
   ('m', 'M'), ('n', 'N'), ('o', 'O'), ('p', 'P'), ('q', 'Q'), ('r', 'R'),
   ('s', 'S'), ('t', 'T'), ('u', 'U'), ('v', 'V'), ('w', 'W'), ('x', 'X'),
   ('y', 'Y'), ('z', 'Z')]

/-- ASCII upper-to-lower character table. -/
def lowPairs : List (Char × Char) := upPairs.map (fun p => (p.2, p.1))

/-- ASCII uppercase of one character; models str.upper on the ASCII
labels the pipeline uppercases (SKUs, category and payment labels). -/
def upChar (c : Char) : Char := (alook c upPairs).getD c

/-- ASCII lowercase of one character; models str.lower on the ASCII
strings the pipeline lowercases (emails, filenames). -/
def lowChar (c : Char) : Char := (alook c lowPairs).getD c

/-- Models str.upper. -/
def upStr (s : String) : String := ⟨s.data.map upChar⟩

/-- Models str.lower. -/
def lowStr (s : String) : String := ⟨s.data.map lowChar⟩

/-- Whitespace stripped by str.strip (ASCII whitespace set). -/
def isSpaceChar (c : Char) : Bool :=
  c == ' ' || c == '\t' || c == '\n' || c == '\r' || c == '\x0b' || c == '\x0c'

/-- Models str.strip: drop leading and trailing whitespace. -/
def stripChars (l : List Char) : List Char :=
  ((l.dropWhile isSpaceChar).reverse.dropWhile isSpaceChar).reverse

/-- Models str.strip on a string. -/
def pyStrip (s : String) : String := ⟨stripChars s.data⟩

/-- Python str() of a cell value as the validators apply it.  A NaN cell
prints as nan and a numeric cell prints its decimal form; the claims
settled here exercise str() on text cells only, so the exact CPython
float formatting is not load-bearing. -/
def pyStr : Val → String
  | .na => "nan"
  | .str s => s
  | .num q => toString q

/-- A tabular row: ordered association of normalized header names to
cells (models the pandas Series consumed by validators and
transformers). -/
abbrev Row := List (String × Val)

/-- Value of a field, if the field is present. -/
def rowFind (r : Row) (k : String) : Option Val := alook k r

/-- Python membership test field in row. -/
def rowHas (r : Row) (k : String) : Bool := (rowFind r k).isSome

/-- Python row.get(k, d). -/
def rowGetD (r : Row) (k : String) (d : Val) : Val := (rowFind r k).getD d

/-- Python assignment row[k] = v: replace the value of an existing key,
append a new key otherwise. -/
def rowSet (r : Row) (k : String) (v : Val) : Row :=
  match r with
  | [] => [(k, v)]
  | (k0, v0) :: rest =>
      if k0 = k then (k0, v) :: rest else (k0, v0) :: rowSet rest k v

/-- ETLConfig.PRODUCT_CATEGORY_MAPPING from config/etl_config.py. -/
def PRODUCT_CATEGORY_MAPPING : List (String × String) :=
  [("ELECTRONICS", "ELECTRONICS"), ("ЭЛЕКТРОНИКА", "ELECTRONICS"),
   ("CLOTHING", "CLOTHING"), ("ОДЕЖДА", "CLOTHING"),
   ("HOME_GARDEN", "HOME_GARDEN"), ("ДОМ И САД", "HOME_GARDEN"),
   ("BEAUTY", "BEAUTY"), ("КРАСОТА", "BEAUTY"),
   ("SPORTS", "SPORTS"), ("СПОРТ", "SPORTS"),
   ("BOOKS", "BOOKS"), ("КНИГИ", "BOOKS"),
   ("KIDS", "KIDS"), ("ДЕТСКИЕ ТОВАРЫ", "KIDS"),
   ("FOOD", "FOOD"), ("ПРОДУКТЫ", "FOOD")]

/-- ETLConfig.PAYMENT_METHOD_MAPPING from config/etl_config.py. -/
def PAYMENT_METHOD_MAPPING : List (String × String) :=
  [("CARD_ONLINE", "CARD_ONLINE"), ("КАРТА ОНЛАЙН", "CARD_ONLINE"),
   ("CARD_ON_DELIVERY", "CARD_ON_DELIVERY"),
   ("КАРТА ПРИ ПОЛУЧЕНИИ", "CARD_ON_DELIVERY"),
   ("CASH", "CASH"), ("НАЛИЧНЫЕ", "CASH"),
   ("SBP", "SBP"), ("СБП", "SBP"),
   ("EWALLET", "EWALLET"), ("ЭЛЕКТРОННЫЙ КОШЕЛЁК", "EWALLET"),
   ("CREDIT", "CREDIT"), ("РАССРОЧКА", "CREDIT")]

/-- Category-label mapping applied by
ProductDataTransformer._transform_valid_product (app/etl/transformers.py,
lines 105-108): PRODUCT_CATEGORY_MAPPING.get(category.upper(),
category.upper()). -/
def productCategoryCode (category : String) : String :=
  (alook (upStr category) PRODUCT_CATEGORY_MAPPING).getD (upStr category)

theorem upChar_idem (c : Char) : upChar (upChar c) = upChar c := by
  unfold upChar
  cases h : alook c upPairs with
  | none => simp [h]
  | some u =>
    have hmem : (c, u) ∈ upPairs := alook_mem h
    have hvals : ∀ p ∈ upPairs, alook p.2 upPairs = none := by decide
    simp [h, hvals (c, u) hmem]

theorem upStr_idem (s : String) : upStr (upStr s) = upStr s := by
  unfold upStr
  simp only [List.map_map]
  have : upChar ∘ upChar = upChar := funext upChar_idem
  rw [this]

/-- C9: the product transformer's category-label mapping is a
pass-through on unmapped labels (the unmapped label WIDGETS maps to its
own upper-cased value WIDGETS) and is idempotent: applying the mapping to
an already-canonical code returns that code unchanged. -/
theorem category_mapping_passthrough_idempotent :
    productCategoryCode "WIDGETS" = "WIDGETS" ∧
    ∀ c : String, productCategoryCode (productCategoryCode c) =
      productCategoryCode c := by
  constructor
  · decide
  · intro c
    unfold productCategoryCode
    cases h : alook (upStr c) PRODUCT_CATEGORY_MAPPING with
    | none => simp [h, upStr_idem]
    | some v =>
      have hmem : (upStr c, v) ∈ PRODUCT_CATEGORY_MAPPING := alook_mem h
      have hvals : ∀ p ∈ PRODUCT_CATEGORY_MAPPING,
          upStr p.2 = p.2 ∧ alook p.2 PRODUCT_CATEGORY_MAPPING = some p.2 := by
        decide
      obtain ⟨h1, h2⟩ := hvals (upStr c, v) hmem
      simp [h, h1, h2]

/-! ## Decimal arithmetic (app/crud.py) -/

/-- Python decimal.Decimal value: an integer mantissa at a decimal scale,
denoting mant / 10 ^ scale.  Multiplication is exact at the operand sizes
the schemas admit (an int quantity and a two-place price), which stay far
below the 28-significant-digit context bound that would trigger
rounding. -/
structure Dec where
  mant : Int
  scale : Nat
deriving DecidableEq, Repr

/-- Rational value denoted by a decimal. -/
def Dec.toRat (d : Dec) : ℚ := (d.mant : ℚ) / (10 : ℚ) ^ d.scale

/-- Decimal multiplication. -/
def Dec.mul (a b : Dec) : Dec := ⟨a.mant * b.mant, a.scale + b.scale⟩

/-- Decimal(str(quantity)): exact conversion of an integer quantity. -/
def Dec.ofInt (q : ℤ) : Dec := ⟨q, 0⟩

/-- total_price computation of crud.create_order_item (app/crud.py, line
245): Decimal(str(order_item.quantity)) * order_item.price_per_unit. -/
def orderItemTotalPrice (quantity : ℤ) (pricePerUnit : Dec) : Dec :=
  Dec.mul (Dec.ofInt quantity) pricePerUnit

/-- C4: the derived order-line total is the exact product of the quantity
and the unit price (decimal arithmetic, no rounding drift), and in
particular quantity 3 at unit price 19.99 yields exactly 59.97. -/
theorem order_item_total_price_exact :
    (∀ (q : ℤ) (p : Dec),
      (orderItemTotalPrice q p).toRat = (q : ℚ) * p.toRat) ∧
    (orderItemTotalPrice 3 ⟨1999, 2⟩).toRat = 5997 / 100 := by
  constructor
  · intro q p
    simp [orderItemTotalPrice, Dec.mul, Dec.ofInt, Dec.toRat, mul_div_assoc]
  · norm_num [orderItemTotalPrice, Dec.mul, Dec.ofInt, Dec.toRat]

/-! ## Field-format checks (app/etl/validators.py) -/

/-- Character class [0-9]. -/
def isDigitChar (c : Char) : Bool := 48 ≤ c.toNat && c.toNat ≤ 57

/-- Character class [a-zA-Z]. -/
def isAlphaChar (c : Char) : Bool :=
  (65 ≤ c.toNat && c.toNat ≤ 90) || (97 ≤ c.toNat && c.toNat ≤ 122)

/-- Character class [a-zA-Z0-9._%+-] (email local part). -/
def emailLocalChar (c : Char) : Bool :=
  isAlphaChar c || isDigitChar c ||
    c == '.' || c == '_' || c == '%' || c == '+' || c == '-'

/-- Character class [a-zA-Z0-9.-] (email domain part). -/
def emailDomainChar (c : Char) : Bool :=
  isAlphaChar c || isDigitChar c || c == '.' || c == '-'

/-- Split a character list at the first occurrence of ch. -/
def splitAtChar (ch : Char) : List Char → Option (List Char × List Char)
  | [] => none
  | c :: t =>
      if c = ch then some ([], t)
      else (splitAtChar ch t).map (fun p => (c :: p.1, p.2))

/-- Top-level domain check: at least two letters to the end of input. -/
def tldOk (l : List Char) : Bool := 2 ≤ l.length && l.all isAlphaChar

/-- Matcher for the regex tail [a-zA-Z0-9.-]* followed by a literal dot
and [a-zA-Z]{2,}$, with the backtracking choice at every dot. -/
def domAfter : List Char → Bool
  | [] => false
  | c :: t => (c == '.' && tldOk t) || (emailDomainChar c && domAfter t)

/-- Matcher for the domain regex [a-zA-Z0-9.-]+ then a dot then
[a-zA-Z]{2,}$. -/
def domMatch : List Char → Bool
  | [] => false
  | c :: t => emailDomainChar c && domAfter t

/-- DataValidator.validate_email regex (app/etl/validators.py, line 17):
the whole string is one-or-more local-part characters, an at sign, then a
dotted domain ending in a two-letter-or-longer TLD.  The at sign belongs
to no character class, so the match splits at the first one. -/
def emailMatch (l : List Char) : Bool :=
  match splitAtChar '@' l with
  | none => false
  | some (loc, rest) => !loc.isEmpty && loc.all emailLocalChar && domMatch rest

/-- DataValidator.validate_email: a NaN value fails; any other value is
matched through str() against the email regex. -/
def validateEmail : Val → Bool
  | .na => false
  | v => emailMatch (pyStr v).data

/-- Character class [0-9\s\-\(\)] of the phone regex. -/
def phoneChar (c : Char) : Bool :=
  isDigitChar c || isSpaceChar c || c == '-' || c == '(' || c == ')'

/-- DataValidator.validate_phone regex (app/etl/validators.py, line 24):
an optional plus sign then 10 to 15 characters of digits, whitespace,
dashes or parentheses. -/
def phoneMatch (l : List Char) : Bool :=
  let body := match l with
    | '+' :: t => t
    | _ => l
  10 ≤ body.length && body.length ≤ 15 && body.all phoneChar

/-- DataValidator.validate_phone: a NaN value fails; any other value is
matched through str() against the phone regex. -/
def validatePhone : Val → Bool
  | .na => false
  | v => phoneMatch (pyStr v).data

/-- Digit run to a natural number. -/
def digitsToNat (l : List Char) : Nat :=
  l.foldl (fun a c => a * 10 + (c.toNat - 48)) 0

/-- Plain decimal form accepted by float(): surrounding whitespace, an
optional sign, then digits with an optional fractional part (at least one
digit overall). -/
def parseDecString (s : String) : Option ℚ :=
  let l := stripChars s.data
  let p : ℚ × List Char :=
    match l with
    | '+' :: t => (1, t)
    | '-' :: t => (-1, t)
    | _ => (1, l)
  match splitAtChar '.' p.2 with
  | none =>
      if !p.2.isEmpty && p.2.all isDigitChar then some (p.1 * digitsToNat p.2)
      else none
  | some (ip, fp) =>
      if (!ip.isEmpty || !fp.isEmpty) && ip.all isDigitChar &&
          fp.all isDigitChar then
        some (p.1 * ((digitsToNat ip : ℚ) +
          (digitsToNat fp : ℚ) / (10 : ℚ) ^ fp.length))
      else none

/-- Python float(value) as the validators invoke it inside try/except:
.ok none is a NaN result (float of a NaN cell — every comparison on it is
false), .ok (some q) a finite value, .error () a ValueError/TypeError.
String parsing covers the plain decimal forms; scientific and infinity
spellings are outside every behaviour the claims exercise. -/
def pyFloat : Val → Except Unit (Option ℚ)
  | .na => .ok none
  | .num q => .ok (some q)
  | .str s =>
      match parseDecString s with
      | some q => .ok (some q)
      | none => .error ()

/-! ## Row validators (app/etl/validators.py) -/

/-- DataValidator.validate_required_fields (lines 28-33): the fields, in
declaration order, that are absent, NaN, or blank after str().strip(). -/
def validateRequiredFields (row : Row) (required : List String) : List String :=
  required.filter (fun f =>
    match rowFind row f with
    | none => true
    | some .na => true
    | some v => pyStrip (pyStr v) == "")

/-- Single violation naming every missing required field at once. -/
def missingMsg (fields : List String) : String :=
  "Отсутствуют обязательные поля: " ++ String.intercalate ", " fields

def badEmailMsg : String := "Неверный формат email"

def badPhoneMsg : String := "Неверный формат телефона"

/-- CustomerValidator.REQUIRED_FIELDS. -/
def CUSTOMER_REQUIRED_FIELDS : List String :=
  ["full_name", "email", "phone", "address"]

/-- CustomerValidator.validate_customer_row (lines 41-54): collect the
missing-required-fields violation, then the email-format violation, then
the phone-format violation, and return the verdict together with the
whole violation list. -/
def validateCustomerRow (row : Row) : Bool × List String :=
  let missing := validateRequiredFields row CUSTOMER_REQUIRED_FIELDS
  let e1 : List String := if missing.isEmpty then [] else [missingMsg missing]
  let e2 : List String :=
    if rowHas row "email" && !validateEmail (rowGetD row "email" .na) then
      [badEmailMsg]
    else []
  let e3 : List String :=
    if rowHas row "phone" && !validatePhone (rowGetD row "phone" .na) then
      [badPhoneMsg]
    else []
  let errs := e1 ++ e2 ++ e3
  (errs.isEmpty, errs)

/-- ProductValidator.REQUIRED_FIELDS. -/
def PRODUCT_REQUIRED_FIELDS : List String :=
  ["name", "sku", "weight", "category", "price"]

/-- ProductValidator.validate_product_row (lines 62-85). -/
def validateProductRow (row : Row) : Bool × List String :=
  let missing := validateRequiredFields row PRODUCT_REQUIRED_FIELDS
  let e1 : List String := if missing.isEmpty then [] else [missingMsg missing]
  let e2 : List String :=
    match pyFloat (rowGetD row "weight" (.num 0)) with
    | .error _ => ["Неверный формат веса"]
    | .ok none => []
    | .ok (some w) => if w ≤ 0 then ["Вес должен быть положительным числом"] else []
  let e3 : List String :=
    match pyFloat (rowGetD row "price" (.num 0)) with
    | .error _ => ["Неверный формат цены"]
    | .ok none => []
    | .ok (some p) => if p < 0 then ["Цена не может быть отрицательной"] else []
  let errs := e1 ++ e2 ++ e3
  (errs.isEmpty, errs)

/-- OrderValidator.REQUIRED_FIELDS. -/
def ORDER_REQUIRED_FIELDS : List String :=
  ["customer_email", "delivery_address", "payment_method"]

/-- OrderValidator.validate_order_row (lines 93-108). -/
def validateOrderRow (row : Row) : Bool × List String :=
  let missing := validateRequiredFields row ORDER_REQUIRED_FIELDS
  let e1 : List String := if missing.isEmpty then [] else [missingMsg missing]
  let e2 : List String :=
    match pyFloat (rowGetD row "total_amount" (.num 0)) with
    | .error _ => ["Неверный формат суммы заказа"]
    | .ok none => []
    | .ok (some a) => if a < 0 then ["Сумма заказа не может быть отрицательной"] else []
  let errs := e1 ++ e2
  (errs.isEmpty, errs)

/-! ## Extraction (app/etl/extractors.py) -/

/-- Does pat start the list (character-wise)? -/
def listStarts : List Char → List Char → Bool
  | [], _ => true
  | _ :: _, [] => false
  | a :: as, b :: bs => a == b && listStarts as bs

/-- Models str.endswith. -/
def strEndsWith (s suffix : String) : Bool :=
  listStarts suffix.data.reverse s.data.reverse

/-- Errors DataExtractor.extract_data raises: FileNotFoundError for a
missing resolved path, and the unsupported-format ValueError (the
condition the spec names UnsupportedFormatError) for an extension outside
the supported set. -/
inductive ExtractError where
  | fileNotFound (p : String) : ExtractError
  | unsupportedFormat (p : String) : ExtractError
deriving DecidableEq, Repr

/-- Does the lower-cased path end in .csv, .xlsx or .xls? -/
def supportedExt (p : String) : Bool :=
  strEndsWith (lowStr p) ".csv" || strEndsWith (lowStr p) ".xlsx" ||
    strEndsWith (lowStr p) ".xls"

/-- DataExtractor.extract_data (lines 51-80) after path resolution: the
filesystem is a table from existing full paths to their parsed frames.
A path outside the table raises FileNotFoundError before any extension
check; an existing path dispatches on its lower-cased extension, raising
the unsupported-format error when it is none of .csv, .xlsx, .xls. -/
def extractData (fs : List (String × List Row)) (fullPath : String) :
    Except ExtractError (List Row) :=
  match alook fullPath fs with
  | none => .error (.fileNotFound fullPath)
  | some frame =>
      if strEndsWith (lowStr fullPath) ".csv" then .ok frame
      else if strEndsWith (lowStr fullPath) ".xlsx" ||
          strEndsWith (lowStr fullPath) ".xls" then .ok frame
      else .error (.unsupportedFormat fullPath)

/-- C7: extraction fails with FileNotFoundError when the resolved path
does not exist, fails with the unsupported-format error when the path
exists but its extension is not one of .csv, .xlsx, .xls, and returns the
parsed frame (raising neither error) on an existing path with a supported
extension. -/
theorem extract_data_error_contract (fs : List (String × List Row))
    (fullPath : String) :
    (alook fullPath fs = none →
      extractData fs fullPath = .error (.fileNotFound fullPath)) ∧
    (∀ frame, alook fullPath fs = some frame →
      (supportedExt fullPath = false →
        extractData fs fullPath = .error (.unsupportedFormat fullPath)) ∧
      (supportedExt fullPath = true → extractData fs fullPath = .ok frame)) := by
  refine ⟨fun h => by simp [extractData, h], fun frame h => ⟨fun hs => ?_, fun hs => ?_⟩⟩
  · simp only [supportedExt, Bool.or_eq_false_iff] at hs
    obtain ⟨⟨h1, h2⟩, h3⟩ := hs
    simp [extractData, h, h1, h2, h3]
  · simp only [supportedExt, Bool.or_eq_true] at hs
    rcases hs with hs | hs
    · rcases hs with hs | hs
      · simp [extractData, h, hs]
      · simp [extractData, h, hs]
    · simp [extractData, h, hs]

/-- Closed instances of the extraction error contract: a missing path, an
existing .txt path, and an existing .csv path. -/
theorem extract_data_error_contract_witness :
    extractData [("data.csv", [])] "missing.csv" =
      .error (.fileNotFound "missing.csv") ∧
    extractData [("notes.txt", [])] "notes.txt" =
      .error (.unsupportedFormat "notes.txt") ∧
    extractData [("data.csv", [])] "data.csv" = .ok [] :=
  ⟨(extract_data_error_contract [("data.csv", [])] "missing.csv").1 (by decide),
   ((extract_data_error_contract [("notes.txt", [])] "notes.txt").2 []
      (by decide)).1 (by decide),
   ((extract_data_error_contract [("data.csv", [])] "data.csv").2 []
      (by decide)).2 (by decide)⟩

theorem missingMsg_length_ge (fields : List String) :
    31 ≤ (missingMsg fields).length := by
  unfold missingMsg
  rw [String.length_append]
  have h : ("Отсутствуют обязательные поля: " : String).length = 31 := by decide
  omega

theorem badEmailMsg_ne_missingMsg (fields : List String) :
    ¬ badEmailMsg = missingMsg fields := by
  intro h
  have h1 := missingMsg_length_ge fields
  rw [← h] at h1
  have h2 : badEmailMsg.length = 21 := by decide
  omega

theorem badPhoneMsg_ne_missingMsg (fields : List String) :
    ¬ badPhoneMsg = missingMsg fields := by
  intro h
  have h1 := missingMsg_length_ge fields
  rw [← h] at h1
  have h2 : badPhoneMsg.length = 24 := by decide
  omega

/-- C6: on a customer row with two or more missing required fields, the
validator emits exactly one missing-required-fields violation — the single
message naming all missing fields together — and does not short-circuit:
the email-format and phone-format checks still contribute their
violations, and the verdict is read off the fully collected list. -/
theorem customer_validator_single_missing_violation (row : Row)
    (h2 : 2 ≤ (validateRequiredFields row CUSTOMER_REQUIRED_FIELDS).length) :
    ((validateCustomerRow row).2.countP
      (fun e =>
        decide (e = missingMsg
          (validateRequiredFields row CUSTOMER_REQUIRED_FIELDS))) = 1) ∧
    (rowHas row "email" = true →
      validateEmail (rowGetD row "email" .na) = false →
      badEmailMsg ∈ (validateCustomerRow row).2) ∧
    (rowHas row "phone" = true →
      validatePhone (rowGetD row "phone" .na) = false →
      badPhoneMsg ∈ (validateCustomerRow row).2) ∧
    (validateCustomerRow row).1 = (validateCustomerRow row).2.isEmpty := by
  have hmiss : (validateRequiredFields row CUSTOMER_REQUIRED_FIELDS).isEmpty
      = false := by
    cases hh : validateRequiredFields row CUSTOMER_REQUIRED_FIELDS with
    | nil => rw [hh] at h2; simp at h2
    | cons a t => simp
  refine ⟨?_, ?_, ?_, rfl⟩
  · have key : ∀ (c : Prop) (inst : Decidable c) (msg : String),
        ¬ msg = missingMsg (validateRequiredFields row CUSTOMER_REQUIRED_FIELDS) →
        List.countP
          (fun e => decide (e = missingMsg
            (validateRequiredFields row CUSTOMER_REQUIRED_FIELDS)))
          (@ite _ c inst [msg] []) = 0 := by
      intro c inst msg hne
      split
      · simp [List.countP_cons, hne]
      · simp
    simp only [validateCustomerRow, hmiss, Bool.false_eq_true, if_false,
      List.countP_append, List.countP_cons, List.countP_nil, decide_eq_true_eq]
    rw [key _ _ _ (badEmailMsg_ne_missingMsg _),
      key _ _ _ (badPhoneMsg_ne_missingMsg _)]
    simp
  · intro he hv
    simp [validateCustomerRow, hmiss, he, hv]
  · intro hp hv
    simp [validateCustomerRow, hmiss, hp, hv]

/-- Concrete customer row for the C6 witness: blank email, NaN phone. -/
def c6Row : Row :=
  [("full_name", Val.str "Иван Иванов"),
   ("address", Val.str "Москва, Тверская 1"),
   ("email", Val.str ""),
   ("phone", Val.na)]

/-- Closed instance of the C6 theorem on a row missing both email and
phone. -/
theorem customer_validator_single_missing_violation_witness :
    2 ≤ (validateRequiredFields c6Row CUSTOMER_REQUIRED_FIELDS).length ∧
    ((validateCustomerRow c6Row).2.countP
      (fun e =>
        decide (e = missingMsg
          (validateRequiredFields c6Row CUSTOMER_REQUIRED_FIELDS))) = 1) ∧
    badEmailMsg ∈ (validateCustomerRow c6Row).2 ∧
    badPhoneMsg ∈ (validateCustomerRow c6Row).2 := by
  have h := customer_validator_single_missing_violation c6Row (by decide)
  exact ⟨by decide, h.1, h.2.1 (by decide) (by decide),
    h.2.2.1 (by decide) (by decide)⟩

/-! ## Transformers (app/etl/transformers.py) -/

/-- DataTransformer.clean_text: empty string for NaN, otherwise
str(text).strip(). -/
def cleanText : Val → String
  | .na => ""
  | v => pyStrip (pyStr v)

/-- Text of a present field (row[k] read through str(); the callers only
index fields that prior cleaning stored as text). -/
def getStr (r : Row) (k : String) : String :=
  match rowFind r k with
  | some v => pyStr v
  | none => ""

/-- Cleaning loop at the head of each transform method: for every listed
column present in the row, replace its value by clean_text of it. -/
def cleanCols (cols : List String) (r : Row) : Row :=
  cols.foldl
    (fun acc c =>
      if rowHas acc c then rowSet acc c (.str (cleanText (rowGetD acc c .na)))
      else acc) r

/-- Rejected-row record: the (cleaned) row, its accumulated violations
and its original index. -/
structure ErrRow where
  row : Row
  errs : List String
  origIndex : Nat
deriving DecidableEq, Repr

/-- Canonical customer produced by
CustomerDataTransformer._transform_valid_customer (lines 59-67).  The
uuid4 surrogate is modelled by the row index; nothing downstream consumes
it (the loader lets the store mint identifiers). -/
structure TCustomer where
  customerId : Nat
  fullName : String
  email : String
  phone : String
  address : String
  registrationDate : Option Val
deriving DecidableEq, Repr

/-- One loop iteration family of
CustomerDataTransformer.transform_customer_data (lines 32-57), recursed
over the remaining rows with the running index. -/
def transformCustomerGo (idx : Nat) : List Row → List TCustomer × List ErrRow
  | [] => ([], [])
  | r :: rest =>
      let cleaned := cleanCols ["full_name", "email", "phone", "address"] r
      let v := validateCustomerRow cleaned
      let res := transformCustomerGo (idx + 1) rest
      if v.1 then
        ({ customerId := idx
           fullName := getStr cleaned "full_name"
           email := lowStr (getStr cleaned "email")
           phone := getStr cleaned "phone"
           address := getStr cleaned "address"
           registrationDate := rowFind cleaned "registration_date" } :: res.1,
         res.2)
      else (res.1, ⟨cleaned, v.2, idx⟩ :: res.2)

/-- CustomerDataTransformer.transform_customer_data: partition the rows
into canonical customers and rejected rows. -/
def transformCustomerData (rows : List Row) : List TCustomer × List ErrRow :=
  transformCustomerGo 0 rows

/-- Value of float() where the validator has already certified the cell
(none models a NaN result). -/
def pyFloatVal (v : Val) : Option ℚ :=
  match pyFloat v with
  | .ok q => q
  | .error _ => none

/-- Canonical product produced by
ProductDataTransformer._transform_valid_product (lines 104-119). -/
structure TProduct where
  productId : Nat
  name : String
  description : Option Val
  sku : String
  weight : Option ℚ
  dimensions : Option Val
  categoryCode : String
  price : Option ℚ
deriving DecidableEq, Repr

/-- Loop of ProductDataTransformer.transform_product_data (lines
77-102). -/
def transformProductGo (idx : Nat) : List Row → List TProduct × List ErrRow
  | [] => ([], [])
  | r :: rest =>
      let cleaned := cleanCols ["name", "description", "sku", "category"] r
      let v := validateProductRow cleaned
      let res := transformProductGo (idx + 1) rest
      if v.1 then
        ({ productId := idx
           name := getStr cleaned "name"
           description := rowFind cleaned "description"
           sku := upStr (getStr cleaned "sku")
           weight := pyFloatVal (rowGetD cleaned "weight" .na)
           dimensions := rowFind cleaned "dimensions"
           categoryCode :=
             productCategoryCode (cleanText (rowGetD cleaned "category" (.str "")))
           price := pyFloatVal (rowGetD cleaned "price" .na) } :: res.1,
         res.2)
      else (res.1, ⟨cleaned, v.2, idx⟩ :: res.2)

/-- ProductDataTransformer.transform_product_data. -/
def transformProductData (rows : List Row) : List TProduct × List ErrRow :=
  transformProductGo 0 rows

/-- Canonical order produced by
OrderDataTransformer._transform_valid_order (lines 159-174).  Customer
identifiers (stringified uuids in the source) are modelled as naturals. -/
structure TOrder where
  orderId : Nat
  customerId : Nat
  orderDate : Option Val
  totalAmount : Option ℚ
  deliveryAddress : String
  paymentMethodCode : String
  orderStatusCode : String
deriving DecidableEq, Repr

/-- Normalized customer natural key of an order row:
clean_text(row.get('customer_email', '')).lower(). -/
def orderEmail (r : Row) : String :=
  lowStr (cleanText (rowGetD r "customer_email" (.str "")))

/-- Referential violation appended by the order transformer. -/
def notFoundMsg (email : String) : String :=
  "Клиент с email " ++ email ++ " не найден"

/-- OrderDataTransformer._transform_valid_order. -/
def transformValidOrder (m : List (String × Nat)) (idx : Nat) (r : Row) :
    TOrder :=
  let pm := cleanText (rowGetD r "payment_method" (.str ""))
  { orderId := idx
    customerId := (alook (orderEmail r) m).getD 0
    orderDate := rowFind r "order_date"
    totalAmount := pyFloatVal (rowGetD r "total_amount" (.num 0))
    deliveryAddress := getStr r "delivery_address"
    paymentMethodCode := (alook (upStr pm) PAYMENT_METHOD_MAPPING).getD (upStr pm)
    orderStatusCode := "NEW" }

/-- Two-phase gate an order row must pass to reach the valid set:
structural validity and a customer-mapping hit. -/
def orderGate (m : List (String × Nat)) (r : Row) : Bool :=
  (validateOrderRow r).1 && (alook (orderEmail r) m).isSome

/-- Violation list an order row carries when rejected: the structural
violations, plus the customer-not-found violation when the mapping
misses. -/
def orderRowErrs (m : List (String × Nat)) (r : Row) : List String :=
  if (alook (orderEmail r) m).isSome then (validateOrderRow r).2
  else (validateOrderRow r).2 ++ [notFoundMsg (orderEmail r)]

/-- Loop of OrderDataTransformer.transform_order_data (lines 129-157):
validate structurally, then check the customer email against the identity
map, appending the not-found violation and forcing invalidity on a
miss. -/
def transformOrderGo (m : List (String × Nat)) (idx : Nat) :
    List Row → List TOrder × List ErrRow
  | [] => ([], [])
  | r :: rest =>
      let v := validateOrderRow r
      let ve : Bool × List String :=
        if (alook (orderEmail r) m).isSome then v
        else (false, v.2 ++ [notFoundMsg (orderEmail r)])
      let res := transformOrderGo m (idx + 1) rest
      if ve.1 then (transformValidOrder m idx r :: res.1, res.2)
      else (res.1, ⟨r, ve.2, idx⟩ :: res.2)

/-- OrderDataTransformer.transform_order_data. -/
def transformOrderData (m : List (String × Nat)) (rows : List Row) :
    List TOrder × List ErrRow :=
  transformOrderGo m 0 rows

theorem transformOrderGo_branch (m : List (String × Nat)) (idx : Nat)
    (r : Row) (rest : List Row) :
    transformOrderGo m idx (r :: rest) =
      if orderGate m r then
        ((transformValidOrder m idx r) :: (transformOrderGo m (idx + 1) rest).1,
         (transformOrderGo m (idx + 1) rest).2)
      else ((transformOrderGo m (idx + 1) rest).1,
        ⟨r, orderRowErrs m r, idx⟩ :: (transformOrderGo m (idx + 1) rest).2) := by
  show (let v := validateOrderRow r
        let ve : Bool × List String :=
          if (alook (orderEmail r) m).isSome then v
          else (false, v.2 ++ [notFoundMsg (orderEmail r)])
        let res := transformOrderGo m (idx + 1) rest
        if ve.1 then (transformValidOrder m idx r :: res.1, res.2)
        else (res.1, ⟨r, ve.2, idx⟩ :: res.2)) = _
  cases hs : (alook (orderEmail r) m).isSome with
  | true => cases hv : (validateOrderRow r).1 <;>
      simp [orderGate, orderRowErrs, hs, hv]
  | false => simp [orderGate, orderRowErrs, hs]

theorem transformOrderGo_fst (m : List (String × Nat)) :
    ∀ (rows : List Row) (idx : Nat),
      (transformOrderGo m idx rows).1 =
        (List.enumFrom idx rows).filterMap
          (fun p =>
            if orderGate m p.2 then some (transformValidOrder m p.1 p.2)
            else none) := by
  intro rows
  induction rows with
  | nil => intro idx; rfl
  | cons r rest ih =>
    intro idx
    rw [transformOrderGo_branch]
    cases hg : orderGate m r <;>
      simp [List.enumFrom, hg, ih (idx + 1)]

theorem transformOrderGo_err_mem (m : List (String × Nat)) :
    ∀ (rows : List Row) (idx i : Nat) (r : Row),
      rows.get? i = some r → orderGate m r = false →
      (⟨r, orderRowErrs m r, idx + i⟩ : ErrRow) ∈ (transformOrderGo m idx rows).2 := by
  intro rows
  induction rows with
  | nil => intro idx i r h; simp at h
  | cons r0 rest ih =>
    intro idx i r h hg
    cases i with
    | zero =>
      simp at h
      subst h
      rw [transformOrderGo_branch]
      simp [hg]
    | succ j =>
      rw [List.get?_cons_succ] at h
      rw [transformOrderGo_branch]
      have hmem := ih (idx + 1) j r h hg
      have harith : idx + 1 + j = idx + (j + 1) := by omega
      rw [harith] at hmem
      cases hg0 : orderGate m r0 <;> simp [hg0, hmem]

/-- C2: an order row that passes structural validation but whose cleaned
lower-cased customer email misses the identity map fails the two-phase
gate: it lands in the rejected set with the customer-not-found violation
appended after the structural violations, and the valid set handed to the
loader consists exactly of the transforms of gate-passing rows (so the
row never appears in it). -/
theorem order_customer_not_found_rejected (m : List (String × Nat))
    (rows : List Row) (i : Nat) (r : Row) (h : rows.get? i = some r)
    (_hv : (validateOrderRow r).1 = true)
    (hm : alook (orderEmail r) m = none) :
    orderGate m r = false ∧
    (⟨r, (validateOrderRow r).2 ++ [notFoundMsg (orderEmail r)], i⟩ : ErrRow)
      ∈ (transformOrderData m rows).2 ∧
    (transformOrderData m rows).1 =
      (List.enumFrom 0 rows).filterMap
        (fun p =>
          if orderGate m p.2 then some (transformValidOrder m p.1 p.2)
          else none) := by
  have hg : orderGate m r = false := by simp [orderGate, hm]
  refine ⟨hg, ?_, transformOrderGo_fst m rows 0⟩
  have herrs : orderRowErrs m r =
      (validateOrderRow r).2 ++ [notFoundMsg (orderEmail r)] := by
    simp [orderRowErrs, hm]
  have hmem := transformOrderGo_err_mem m rows 0 i r h hg
  rw [herrs] at hmem
  simpa using hmem

/-- Concrete structurally valid order row for the C2 witness. -/
def c2Row : Row :=
  [("customer_email", Val.str "x@y.ru"),
   ("delivery_address", Val.str "Москва, Арбат 1"),
   ("payment_method", Val.str "CASH")]

/-- Identity map without the witness row's email. -/
def c2Map : List (String × Nat) := [("a@b.ru", 1)]

/-- Closed instance of the C2 theorem: the structurally valid row whose
email misses the identity map is rejected with the not-found violation
and fails the gate. -/
theorem order_customer_not_found_rejected_witness :
    (validateOrderRow c2Row).1 = true ∧
    orderGate c2Map c2Row = false ∧
    (⟨c2Row, (validateOrderRow c2Row).2 ++ [notFoundMsg (orderEmail c2Row)], 0⟩
        : ErrRow) ∈ (transformOrderData c2Map [c2Row]).2 := by
  have h := order_customer_not_found_rejected c2Map [c2Row] 0 c2Row (by rfl)
    (by decide) (by decide)
  exact ⟨by decide, h.1, h.2.1⟩

/-! ## Persistent store and loaders (app/etl/loaders.py, app/crud.py) -/

/-- Stored customer entity, as far as the loader touches it: the
store-minted surrogate identifier and the natural-key email
(models.Customer behind crud.get_customer_by_email /
crud.create_customer). -/
structure StoredCustomer where
  id : Nat
  email : String
deriving DecidableEq, Repr

/-- Stored product entity: surrogate identifier and natural-key SKU. -/
structure StoredProduct where
  id : Nat
  sku : String
deriving DecidableEq, Repr

/-- Stored order entity as created by crud.create_order from the
loader-resolved identifiers. -/
structure StoredOrder where
  id : Nat
  customerId : Nat
  statusId : Nat
  paymentId : Nat
  totalAmount : Option ℚ
  deliveryAddress : String
deriving DecidableEq, Repr

/-- Persistent store as the loaders see it: the entity tables and the
identifier supply with which the store mints surrogate keys (uuid4 /
autoincrement in the source, modelled as a counter). -/
structure DB where
  customers : List StoredCustomer
  products : List StoredProduct
  orders : List StoredOrder
  supply : Nat
deriving DecidableEq, Repr

/-- Initial empty store. -/
def emptyDB : DB := ⟨[], [], [], 0⟩

/-- crud.get_customer_by_email: first row of the customer table with the
given email. -/
def getCustomerByEmail (db : DB) (email : String) : Option StoredCustomer :=
  db.customers.find? (fun c => c.email == email)

/-- crud.get_product_by_sku. -/
def getProductBySku (db : DB) (sku : String) : Option StoredProduct :=
  db.products.find? (fun p => p.sku == sku)

/-- Natural keys of the customer table. -/
def storedEmails (db : DB) : List String := db.customers.map (·.email)

/-- Dict assignment m[k] = v: replace the value of an existing key,
append a new key otherwise. -/
def dinsert {β : Type} (m : List (String × β)) (k : String) (v : β) :
    List (String × β) :=
  match m with
  | [] => [(k, v)]
  | (a, b) :: t => if a = k then (a, v) :: t else (a, b) :: dinsert t k v

/-- Loader counters for a customer file. -/
structure CustomerLoadStats where
  totalProcessed : Nat
  created : Nat
  skipped : Nat
  errors : List String
deriving DecidableEq, Repr

/-- Natural key the customer loader computes for a transformed row:
row.get('email', '').strip().lower(). -/
def normEmail (r : TCustomer) : String := lowStr (pyStrip r.email)

/-- One iteration of CustomerDataLoader.load_customer_data (lines
86-114): look the normalized email up in the store; on a hit register the
existing identifier in the mapping and count a skip; on a miss create the
customer — the pydantic CustomerCreate validation at that boundary is the
opaque acceptance predicate createOk, and a row it rejects follows the
caught-per-row-exception path into the error list. -/
def loadCustomerStep (createOk : TCustomer → String → Bool)
    (acc : CustomerLoadStats × DB × List (String × Nat)) (r : TCustomer) :
    CustomerLoadStats × DB × List (String × Nat) :=
  let st := acc.1
  let db := acc.2.1
  let mapping := acc.2.2
  match getCustomerByEmail db (normEmail r) with
  | some existing =>
      ({ st with skipped := st.skipped + 1 }, db,
       dinsert mapping (normEmail r) existing.id)
  | none =>
      if createOk r (normEmail r) then
        ({ st with created := st.created + 1 },
         { db with customers := db.customers ++ [⟨db.supply, normEmail r⟩],
                   supply := db.supply + 1 },
         dinsert mapping (normEmail r) db.supply)
      else
        ({ st with errors :=
            st.errors ++ ["Ошибка при создании клиента " ++ r.fullName] },
         db, mapping)

/-- CustomerDataLoader.load_customer_data: fold the per-row step over the
valid rows, starting from fresh counters and an empty identity map. -/
def loadCustomerData (createOk : TCustomer → String → Bool)
    (rows : List TCustomer) (db : DB) :
    CustomerLoadStats × DB × List (String × Nat) :=
  rows.foldl (loadCustomerStep createOk)
    ({ totalProcessed := rows.length, created := 0, skipped := 0,
       errors := [] }, db, [])

theorem getCustomerByEmail_eq_none (db : DB) (e : String)
    (h : e ∉ storedEmails db) : getCustomerByEmail db e = none := by
  apply List.find?_eq_none.mpr
  intro c hc
  simp only [storedEmails, List.mem_map] at h
  simp only [beq_iff_eq]
  intro he
  exact h ⟨c, hc, he⟩

theorem getCustomerByEmail_of_mem (db : DB) (e : String)
    (h : e ∈ storedEmails db) :
    ∃ c, getCustomerByEmail db e = some c := by
  simp only [storedEmails, List.mem_map] at h
  obtain ⟨c, hc, he⟩ := h
  have : (getCustomerByEmail db e).isSome := by
    apply List.find?_isSome.mpr
    exact ⟨c, hc, by simp [he]⟩
  obtain ⟨c0, hc0⟩ := Option.isSome_iff_exists.mp this
  exact ⟨c0, hc0⟩

theorem loadCustomerFold_fresh (createOk : TCustomer → String → Bool) :
    ∀ (rows : List TCustomer) (st : CustomerLoadStats) (db : DB)
      (m : List (String × Nat)),
      (rows.map normEmail).Nodup →
      (∀ r ∈ rows, normEmail r ∉ storedEmails db) →
      (∀ r ∈ rows, createOk r (normEmail r) = true) →
      (rows.foldl (loadCustomerStep createOk) (st, db, m)).1.created =
          st.created + rows.length ∧
      (rows.foldl (loadCustomerStep createOk) (st, db, m)).1.skipped =
          st.skipped ∧
      storedEmails (rows.foldl (loadCustomerStep createOk) (st, db, m)).2.1 =
          storedEmails db ++ rows.map normEmail := by
  intro rows
  induction rows with
  | nil => intro st db m _ _ _; simp
  | cons r rest ih =>
    intro st db m hnd hfresh hok
    have hmiss : getCustomerByEmail db (normEmail r) = none :=
      getCustomerByEmail_eq_none db (normEmail r)
        (hfresh r (List.mem_cons_self r rest))
    have hcr : createOk r (normEmail r) = true :=
      hok r (List.mem_cons_self r rest)
    simp only [List.foldl_cons, loadCustomerStep, hmiss, hcr, if_true]
    have hnd2 : (rest.map normEmail).Nodup := by
      simp only [List.map_cons, List.nodup_cons] at hnd
      exact hnd.2
    have hne : ∀ r2 ∈ rest, normEmail r2 ≠ normEmail r := by
      intro r2 hr2 he
      simp only [List.map_cons, List.nodup_cons] at hnd
      exact hnd.1 (he ▸ List.mem_map_of_mem normEmail hr2)
    have hfresh2 : ∀ r2 ∈ rest,
        normEmail r2 ∉
          storedEmails { db with
            customers := db.customers ++ [⟨db.supply, normEmail r⟩],
            supply := db.supply + 1 } := by
      intro r2 hr2
      simp only [storedEmails, List.map_append, List.mem_append,
        List.map_cons, List.map_nil, List.mem_cons, List.not_mem_nil]
      rintro (h | h | h)
      · exact hfresh r2 (List.mem_cons_of_mem r hr2)
          (by simpa [storedEmails] using h)
      · exact hne r2 hr2 h
      · exact h
    have hok2 : ∀ r2 ∈ rest, createOk r2 (normEmail r2) = true :=
      fun r2 hr2 => hok r2 (List.mem_cons_of_mem r hr2)
    obtain ⟨h1, h2, h3⟩ := ih { st with created := st.created + 1 }
      { db with customers := db.customers ++ [⟨db.supply, normEmail r⟩],
                supply := db.supply + 1 }
      (dinsert m (normEmail r) db.supply) hnd2 hfresh2 hok2
    refine ⟨?_, by simpa using h2, ?_⟩
    · rw [h1]; simp; omega
    · rw [h3]
      simp [storedEmails]

theorem loadCustomerFold_existing (createOk : TCustomer → String → Bool) :
    ∀ (rows : List TCustomer) (st : CustomerLoadStats) (db : DB)
      (m : List (String × Nat)),
      (∀ r ∈ rows, normEmail r ∈ storedEmails db) →
      (rows.foldl (loadCustomerStep createOk) (st, db, m)).1.created =
          st.created ∧
      (rows.foldl (loadCustomerStep createOk) (st, db, m)).1.skipped =
          st.skipped + rows.length ∧
      (rows.foldl (loadCustomerStep createOk) (st, db, m)).2.1 = db := by
  intro rows
  induction rows with
  | nil => intro st db m _; simp
  | cons r rest ih =>
    intro st db m hmem
    obtain ⟨c, hc⟩ := getCustomerByEmail_of_mem db (normEmail r)
      (hmem r (List.mem_cons_self r rest))
    simp only [List.foldl_cons, loadCustomerStep, hc]
    obtain ⟨h1, h2, h3⟩ := ih { st with skipped := st.skipped + 1 } db
      (dinsert m (normEmail r) c.id)
      (fun r2 hr2 => hmem r2 (List.mem_cons_of_mem r hr2))
    refine ⟨by simpa using h1, ?_, h3⟩
    rw [h2]; simp; omega

/-- C3: loading the same valid customer rows twice against the same store
is idempotent.  When the rows are accepted by the creation boundary, their
normalized emails are pairwise distinct and none is already stored, the
first load creates every row and skips none; the second load of the
identical rows against the resulting store creates none, skips every row,
and leaves the store unchanged. -/
theorem customer_load_idempotent (createOk : TCustomer → String → Bool)
    (rows : List TCustomer) (db : DB)
    (h1 : (rows.map normEmail).Nodup)
    (h2 : ∀ r ∈ rows, normEmail r ∉ storedEmails db)
    (h3 : ∀ r ∈ rows, createOk r (normEmail r) = true) :
    (loadCustomerData createOk rows db).1.created = rows.length ∧
    (loadCustomerData createOk rows db).1.skipped = 0 ∧
    (loadCustomerData createOk rows
      (loadCustomerData createOk rows db).2.1).1.created = 0 ∧
    (loadCustomerData createOk rows
      (loadCustomerData createOk rows db).2.1).1.skipped = rows.length ∧
    (loadCustomerData createOk rows
      (loadCustomerData createOk rows db).2.1).2.1 =
      (loadCustomerData createOk rows db).2.1 := by
  obtain ⟨f1, f2, f3⟩ := loadCustomerFold_fresh createOk rows
    { totalProcessed := rows.length, created := 0, skipped := 0,
      errors := [] } db [] h1 h2 h3
  have hmem : ∀ r ∈ rows,
      normEmail r ∈ storedEmails (loadCustomerData createOk rows db).2.1 := by
    intro r hr
    rw [show (loadCustomerData createOk rows db).2.1 =
        (rows.foldl (loadCustomerStep createOk)
          ({ totalProcessed := rows.length, created := 0, skipped := 0,
             errors := [] }, db, [])).2.1 from rfl, f3]
    exact List.mem_append_right _ (List.mem_map_of_mem normEmail hr)
  obtain ⟨e1, e2, e3⟩ := loadCustomerFold_existing createOk rows
    { totalProcessed := rows.length, created := 0, skipped := 0,
      errors := [] } (loadCustomerData createOk rows db).2.1 [] hmem
  exact ⟨by simpa using f1, by simpa using f2, by simpa using e1,
    by simpa using e2, e3⟩

/-- Two concrete valid customers with distinct emails for the C3
witness. -/
def c3Rows : List TCustomer :=
  [⟨0, "Иван Иванов", "a@b.ru", "+71234567890", "Москва, Тверская 1", none⟩,
   ⟨1, "Пётр Петров", "c@d.ru", "+71234567891", "Казань, Баумана 2", none⟩]

/-- Closed instance of customer-load idempotence on a fresh store. -/
theorem customer_load_idempotent_witness :
    (c3Rows.map normEmail).Nodup ∧
    (loadCustomerData (fun _ _ => true) c3Rows emptyDB).1.created = 2 ∧
    (loadCustomerData (fun _ _ => true) c3Rows emptyDB).1.skipped = 0 ∧
    (loadCustomerData (fun _ _ => true) c3Rows
      (loadCustomerData (fun _ _ => true) c3Rows emptyDB).2.1).1.created = 0 ∧
    (loadCustomerData (fun _ _ => true) c3Rows
      (loadCustomerData (fun _ _ => true) c3Rows emptyDB).2.1).1.skipped = 2 := by
  have h := customer_load_idempotent (fun _ _ => true) c3Rows emptyDB
    (by decide) (by decide) (by decide)
  exact ⟨by decide, h.1, h.2.1, h.2.2.1, h.2.2.2.1⟩

/-- Loader counters for a product file. -/
structure ProductLoadStats where
  totalProcessed : Nat
  created : Nat
  skipped : Nat
  errors : List String
deriving DecidableEq, Repr

/-- One iteration of ProductDataLoader.load_product_data (lines 138-171):
skip on a SKU hit; resolve the category code through the store's category
dictionary where the falsy check treats a missing entry (and an
identifier 0) as a load error; create otherwise, subject to the opaque
ProductCreate acceptance predicate. -/
def loadProductStep (createOk : TProduct → Nat → Bool)
    (catMap : List (String × Nat)) (acc : ProductLoadStats × DB)
    (r : TProduct) : ProductLoadStats × DB :=
  let st := acc.1
  let db := acc.2
  let sku := upStr (pyStrip r.sku)
  match getProductBySku db sku with
  | some _ => ({ st with skipped := st.skipped + 1 }, db)
  | none =>
      let catId := (alook r.categoryCode catMap).getD 0
      if catId = 0 then
        ({ st with errors :=
            st.errors ++ ["Категория не найдена: " ++ r.categoryCode] }, db)
      else if createOk r catId then
        ({ st with created := st.created + 1 },
         { db with products := db.products ++ [⟨db.supply, sku⟩],
                   supply := db.supply + 1 })
      else
        ({ st with errors :=
            st.errors ++ ["Ошибка при создании товара " ++ r.name] }, db)

/-- ProductDataLoader.load_product_data. -/
def loadProductData (createOk : TProduct → Nat → Bool)
    (catMap : List (String × Nat)) (rows : List TProduct) (db : DB) :
    ProductLoadStats × DB :=
  rows.foldl (loadProductStep createOk catMap)
    ({ totalProcessed := rows.length, created := 0, skipped := 0,
       errors := [] }, db)

/-- Loader counters for an order file. -/
structure OrderLoadStats where
  totalProcessed : Nat
  created : Nat
  errors : List String
deriving DecidableEq, Repr

/-- One iteration of OrderDataLoader.load_order_data (lines 197-221).
The status identifier is status_mapping.get(code, status_mapping.get
of NEW); the payment identifier goes through the falsy check, so a
missing (or zero) entry is a load error and the row is skipped.  A status
resolution of None reaches OrderCreate, whose required int field rejects
it — the caught exception path; an available identifier proceeds to the
creation boundary guarded by the opaque OrderCreate acceptance
predicate. -/
def loadOrderStep (createOk : TOrder → Nat → Nat → Bool)
    (statusMap payMap : List (String × Nat)) (acc : OrderLoadStats × DB)
    (r : TOrder) : OrderLoadStats × DB :=
  let st := acc.1
  let db := acc.2
  let statusId : Option Nat :=
    match alook r.orderStatusCode statusMap with
    | some v => some v
    | none => alook "NEW" statusMap
  let payId := (alook r.paymentMethodCode payMap).getD 0
  if payId = 0 then
    ({ st with errors :=
        st.errors ++ ["Способ оплаты не найден: " ++ r.paymentMethodCode] },
     db)
  else
    match statusId with
    | none =>
        ({ st with errors := st.errors ++ ["Ошибка при создании заказа"] },
         db)
    | some sid =>
        if createOk r sid payId then
          let o : StoredOrder :=
            ⟨db.supply, r.customerId, sid, payId, r.totalAmount,
              r.deliveryAddress⟩
          ({ st with created := st.created + 1 },
           { db with orders := db.orders ++ [o], supply := db.supply + 1 })
        else
          ({ st with errors := st.errors ++ ["Ошибка при создании заказа"] },
           db)

/-- OrderDataLoader.load_order_data. -/
def loadOrderData (createOk : TOrder → Nat → Nat → Bool)
    (statusMap payMap : List (String × Nat)) (rows : List TOrder) (db : DB) :
    OrderLoadStats × DB :=
  rows.foldl (loadOrderStep createOk statusMap payMap)
    ({ totalProcessed := rows.length, created := 0, errors := [] }, db)

/-- C10: in the order loader a status code absent from the status lookup
table never produces a load error — the row is silently created with the
identifier of the canonical NEW status — while a payment-method code
absent from the payment lookup table always produces a load-error entry
and the row is skipped without any write. -/
theorem order_loader_status_defaults_payment_errors
    (createOk : TOrder → Nat → Nat → Bool)
    (statusMap payMap : List (String × Nat)) (db db' : DB) (r r' : TOrder)
    (nid pid : Nat)
    (hNew : alook "NEW" statusMap = some nid)
    (hs : alook r.orderStatusCode statusMap = none)
    (hp : alook r.paymentMethodCode payMap = some pid) (hpid : 0 < pid)
    (hok : createOk r nid pid = true)
    (hp' : alook r'.paymentMethodCode payMap = none) :
    ((loadOrderData createOk statusMap payMap [r] db).1.created = 1 ∧
     (loadOrderData createOk statusMap payMap [r] db).1.errors = [] ∧
     (loadOrderData createOk statusMap payMap [r] db).2.orders =
       db.orders ++ [⟨db.supply, r.customerId, nid, pid, r.totalAmount,
         r.deliveryAddress⟩]) ∧
    ((loadOrderData createOk statusMap payMap [r'] db').1.created = 0 ∧
     (loadOrderData createOk statusMap payMap [r'] db').1.errors =
       ["Способ оплаты не найден: " ++ r'.paymentMethodCode] ∧
     (loadOrderData createOk statusMap payMap [r'] db').2 = db') := by
  constructor
  · have hpz : ¬ pid = 0 := by omega
    simp [loadOrderData, loadOrderStep, hNew, hs, hp, hpz, hok]
  · simp [loadOrderData, loadOrderStep, hp']

/-- Concrete order row with an unknown status code for the C10
witness. -/
def c10Row : TOrder :=
  ⟨0, 3, none, some 0, "Москва, Арбат 1", "CASH", "SHIPPED_TOMORROW"⟩

/-- Concrete order row with an unknown payment code for the C10
witness. -/
def c10RowBad : TOrder :=
  ⟨1, 3, none, some 0, "Москва, Арбат 1", "GOLD", "NEW"⟩

/-- Closed instance of the C10 theorem with a one-entry status table
holding only NEW and a one-entry payment table holding CASH. -/
theorem order_loader_status_defaults_payment_errors_witness :
    ((loadOrderData (fun _ _ _ => true) [("NEW", 1)] [("CASH", 2)]
        [c10Row] emptyDB).1.created = 1 ∧
     (loadOrderData (fun _ _ _ => true) [("NEW", 1)] [("CASH", 2)]
        [c10Row] emptyDB).1.errors = [] ∧
     (loadOrderData (fun _ _ _ => true) [("NEW", 1)] [("CASH", 2)]
        [c10Row] emptyDB).2.orders =
       [⟨0, 3, 1, 2, some 0, "Москва, Арбат 1"⟩]) ∧
    ((loadOrderData (fun _ _ _ => true) [("NEW", 1)] [("CASH", 2)]
        [c10RowBad] emptyDB).1.created = 0 ∧
     (loadOrderData (fun _ _ _ => true) [("NEW", 1)] [("CASH", 2)]
        [c10RowBad] emptyDB).1.errors =
       ["Способ оплаты не найден: GOLD"]) := by
  have h := order_loader_status_defaults_payment_errors
    (fun _ _ _ => true) [("NEW", 1)] [("CASH", 2)] emptyDB emptyDB
    c10Row c10RowBad 1 2 (by decide) (by decide) (by decide) (by decide)
    (by decide) (by decide)
  exact ⟨⟨h.1.1, h.1.2.1, by rw [h.1.2.2]; decide⟩,
    h.2.1, by rw [h.2.2.1]; decide⟩

/-! ## Orchestrator (app/etl/orchestrator.py) -/

/-- Value stored under a statistics key. -/
inductive StatVal where
  | n (k : Nat) : StatVal
  | s (msg : String) : StatVal
  | strs (l : List String) : StatVal
deriving DecidableEq, Repr

/-- Build a Python dict literal by sequential insertion: a later pair for
the same key — as arises from the **load_stats expansion — overwrites an
earlier one. -/
def dictBuild (pairs : List (String × StatVal)) : List (String × StatVal) :=
  pairs.foldl (fun d p => dinsert d p.1 p.2) []

/-- Pairs of the load_stats dict of CustomerDataLoader.load_customer_data
(loaders.py lines 77-82), in insertion order. -/
def customerLoadStatsPairs (ls : CustomerLoadStats) :
    List (String × StatVal) :=
  [("total_processed", .n ls.totalProcessed),
   ("customers_created", .n ls.created),
   ("customers_skipped", .n ls.skipped),
   ("errors", .strs ls.errors)]

/-- Pairs of the load_stats dict of ProductDataLoader.load_product_data
(loaders.py lines 127-132). -/
def productLoadStatsPairs (ls : ProductLoadStats) :
    List (String × StatVal) :=
  [("total_processed", .n ls.totalProcessed),
   ("products_created", .n ls.created),
   ("products_skipped", .n ls.skipped),
   ("errors", .strs ls.errors)]

/-- Pairs of the load_stats dict of OrderDataLoader.load_order_data
(loaders.py lines 184-188). -/
def orderLoadStatsPairs (ls : OrderLoadStats) : List (String × StatVal) :=
  [("total_processed", .n ls.totalProcessed),
   ("orders_created", .n ls.created),
   ("errors", .strs ls.errors)]

/-- Statistics entry the orchestrator assigns for a processed customers
file (orchestrator.py lines 73-78): the dict literal holding
total_processed (count of raw records), valid_records, error_records,
followed by the **load_stats expansion. -/
def customersStatsEntry (rawLen validLen errLen : Nat)
    (ls : CustomerLoadStats) : List (String × StatVal) :=
  dictBuild ([("total_processed", .n rawLen),
    ("valid_records", .n validLen),
    ("error_records", .n errLen)] ++ customerLoadStatsPairs ls)

/-- Statistics entry for a processed products file (lines 108-113). -/
def productsStatsEntry (rawLen validLen errLen : Nat)
    (ls : ProductLoadStats) : List (String × StatVal) :=
  dictBuild ([("total_processed", .n rawLen),
    ("valid_records", .n validLen),
    ("error_records", .n errLen)] ++ productLoadStatsPairs ls)

/-- Statistics entry for a processed orders file (lines 141-146). -/
def ordersStatsEntry (rawLen validLen errLen : Nat)
    (ls : OrderLoadStats) : List (String × StatVal) :=
  dictBuild ([("total_processed", .n rawLen),
    ("valid_records", .n validLen),
    ("error_records", .n errLen)] ++ orderLoadStatsPairs ls)

/-- Statistics entry recorded when a whole-file exception is caught
(orchestrator.py line 87, 120, 153). -/
def errorStatsEntry (e : String) : List (String × StatVal) :=
  dictBuild [("error", .s e), ("total_processed", .n 0)]

/-- Entity type a file is routed to. -/
inductive EntityKind where
  | customers : EntityKind
  | products : EntityKind
  | orders : EntityKind
deriving DecidableEq, Repr

/-- One per-file statistics assignment, in processing order. -/
structure FileRecord where
  kind : EntityKind
  entry : List (String × StatVal)
deriving DecidableEq, Repr

/-- Store dictionaries and the pydantic creation boundaries the loaders
consult during a run. -/
structure LoadEnv where
  catMap : List (String × Nat)
  statusMap : List (String × Nat)
  payMap : List (String × Nat)
  custOk : TCustomer → String → Bool
  prodOk : TProduct → Nat → Bool
  ordOk : TOrder → Nat → Nat → Bool

/-- Extraction outcome per file path: the post-normalization frame, or
the message of whatever whole-file exception the reader raised (missing
file, unsupported format, parse failure, ...). -/
abbrev ExtractEnv := String → Except String (List Row)

/-- Orchestrator state across a run: the store, self.customer_mapping,
and the sequence of per-file statistics assignments. -/
structure RunState where
  db : DB
  custMap : List (String × Nat)
  records : List FileRecord

/-- State at the start of run_etl_pipeline. -/
def initialRunState : RunState := ⟨emptyDB, [], []⟩

/-- Raising body of ETLOrchestrator.process_customers_file (lines 49-83):
extract, transform, load, record the statistics entry and replace
self.customer_mapping with the loader's identity map. -/
def processCustomersFileRaw (lenv : LoadEnv) (env : ExtractEnv)
    (path : String) (st : RunState) : Except String RunState :=
  match env path with
  | .error e => .error e
  | .ok raw =>
      let tr := transformCustomerData raw
      let lr := loadCustomerData lenv.custOk tr.1 st.db
      .ok { db := lr.2.1
            custMap := lr.2.2
            records := st.records ++
              [⟨.customers,
                customersStatsEntry raw.length tr.1.length tr.2.length lr.1⟩] }

/-- ETLOrchestrator.process_customers_file with its catch-all except
(lines 85-87): a whole-file exception is recorded as an error entry with
total_processed 0 and does not propagate. -/
def processCustomersFile (lenv : LoadEnv) (env : ExtractEnv)
    (path : String) (st : RunState) : RunState :=
  match processCustomersFileRaw lenv env path st with
  | .ok st2 => st2
  | .error e =>
      { st with records := st.records ++ [⟨.customers, errorStatsEntry e⟩] }

/-- Raising body of ETLOrchestrator.process_products_file (lines
93-116). -/
def processProductsFileRaw (lenv : LoadEnv) (env : ExtractEnv)
    (path : String) (st : RunState) : Except String RunState :=
  match env path with
  | .error e => .error e
  | .ok raw =>
      let tr := transformProductData raw
      let lr := loadProductData lenv.prodOk lenv.catMap tr.1 st.db
      .ok { db := lr.2
            custMap := st.custMap
            records := st.records ++
              [⟨.products,
                productsStatsEntry raw.length tr.1.length tr.2.length lr.1⟩] }

/-- ETLOrchestrator.process_products_file with its catch-all except
(lines 118-120). -/
def processProductsFile (lenv : LoadEnv) (env : ExtractEnv)
    (path : String) (st : RunState) : RunState :=
  match processProductsFileRaw lenv env path st with
  | .ok st2 => st2
  | .error e =>
      { st with records := st.records ++ [⟨.products, errorStatsEntry e⟩] }

/-- Raising body of ETLOrchestrator.process_orders_file (lines 126-149):
the order transformer reads self.customer_mapping as left by the last
customers file (initially empty). -/
def processOrdersFileRaw (lenv : LoadEnv) (env : ExtractEnv)
    (path : String) (st : RunState) : Except String RunState :=
  match env path with
  | .error e => .error e
  | .ok raw =>
      let tr := transformOrderData st.custMap raw
      let lr := loadOrderData lenv.ordOk lenv.statusMap lenv.payMap tr.1 st.db
      .ok { db := lr.2
            custMap := st.custMap
            records := st.records ++
              [⟨.orders,
                ordersStatsEntry raw.length tr.1.length tr.2.length lr.1⟩] }

/-- ETLOrchestrator.process_orders_file with its catch-all except (lines
151-153). -/
def processOrdersFile (lenv : LoadEnv) (env : ExtractEnv)
    (path : String) (st : RunState) : RunState :=
  match processOrdersFileRaw lenv env path st with
  | .ok st2 => st2
  | .error e =>
      { st with records := st.records ++ [⟨.orders, errorStatsEntry e⟩] }

/-- Does pat occur contiguously in the list (Python substring test)? -/
def listContainsSeq (pat : List Char) : List Char → Bool
  | [] => pat.isEmpty
  | c :: t => listStarts pat (c :: t) || listContainsSeq pat t

/-- Python membership pat in s on strings. -/
def strIn (pat s : String) : Bool := listContainsSeq pat.data s.data

/-- Filename routing of ETLOrchestrator.run_etl_pipeline (lines 168-179):
keyword match on the lower-cased name, customers first, then products,
then orders; a file matching no keyword is logged and skipped.
Lower-casing is ASCII here; the bilingual keywords are already
lower-case. -/
def routeFile (file : String) : Option EntityKind :=
  let fl := lowStr file
  if strIn "customer" fl || strIn "клиент" fl then some .customers
  else if strIn "product" fl || strIn "товар" fl then some .products
  else if strIn "order" fl || strIn "заказ" fl then some .orders
  else none

/-- One iteration of the file loop of run_etl_pipeline. -/
def runStep (lenv : LoadEnv) (env : ExtractEnv) (st : RunState)
    (file : String) : RunState :=
  match routeFile file with
  | some .customers => processCustomersFile lenv env file st
  | some .products => processProductsFile lenv env file st
  | some .orders => processOrdersFile lenv env file st
  | none => st

/-- ETLOrchestrator.run_etl_pipeline (lines 155-188): process the
discovered files strictly in list order. -/
def runEtlPipeline (lenv : LoadEnv) (env : ExtractEnv)
    (files : List String) : RunState :=
  files.foldl (runStep lenv env) initialRunState

/-- The discovered files that route to some entity type, with their
routes, in discovery order. -/
def routedFiles (files : List String) : List (String × EntityKind) :=
  files.filterMap (fun f => (routeFile f).map (fun k => (f, k)))

/-- Does some orders element precede some customers element? -/
def ordersBeforeCustomers : List EntityKind → Bool
  | [] => false
  | .orders :: rest => rest.contains .customers || ordersBeforeCustomers rest
  | _ :: rest => ordersBeforeCustomers rest

theorem processCustomersFile_records (lenv : LoadEnv) (env : ExtractEnv)
    (path : String) (st : RunState) :
    ∃ e, (processCustomersFile lenv env path st).records =
      st.records ++ [⟨.customers, e⟩] := by
  unfold processCustomersFile processCustomersFileRaw
  cases h : env path with
  | error e => exact ⟨errorStatsEntry e, by simp⟩
  | ok raw =>
    exact ⟨customersStatsEntry raw.length (transformCustomerData raw).1.length
      (transformCustomerData raw).2.length
      (loadCustomerData lenv.custOk (transformCustomerData raw).1 st.db).1,
      by simp⟩

theorem processProductsFile_records (lenv : LoadEnv) (env : ExtractEnv)
    (path : String) (st : RunState) :
    ∃ e, (processProductsFile lenv env path st).records =
      st.records ++ [⟨.products, e⟩] := by
  unfold processProductsFile processProductsFileRaw
  cases h : env path with
  | error e => exact ⟨errorStatsEntry e, by simp⟩
  | ok raw =>
    exact ⟨productsStatsEntry raw.length (transformProductData raw).1.length
      (transformProductData raw).2.length
      (loadProductData lenv.prodOk lenv.catMap
        (transformProductData raw).1 st.db).1,
      by simp⟩

theorem processOrdersFile_records (lenv : LoadEnv) (env : ExtractEnv)
    (path : String) (st : RunState) :
    ∃ e, (processOrdersFile lenv env path st).records =
      st.records ++ [⟨.orders, e⟩] := by
  unfold processOrdersFile processOrdersFileRaw
  cases h : env path with
  | error e => exact ⟨errorStatsEntry e, by simp⟩
  | ok raw =>
    exact ⟨ordersStatsEntry raw.length
      (transformOrderData st.custMap raw).1.length
      (transformOrderData st.custMap raw).2.length
      (loadOrderData lenv.ordOk lenv.statusMap lenv.payMap
        (transformOrderData st.custMap raw).1 st.db).1,
      by simp⟩

theorem runStep_records (lenv : LoadEnv) (env : ExtractEnv) (st : RunState)
    (file : String) :
    ∃ tail, (runStep lenv env st file).records = st.records ++ tail ∧
      tail.map (fun fr => fr.kind) = (routeFile file).toList := by
  unfold runStep
  cases hr : routeFile file with
  | none => exact ⟨[], by simp, by simp⟩
  | some k =>
    cases k with
    | customers =>
      obtain ⟨e, he⟩ := processCustomersFile_records lenv env file st
      exact ⟨[⟨.customers, e⟩], he, by simp⟩
    | products =>
      obtain ⟨e, he⟩ := processProductsFile_records lenv env file st
      exact ⟨[⟨.products, e⟩], he, by simp⟩
    | orders =>
      obtain ⟨e, he⟩ := processOrdersFile_records lenv env file st
      exact ⟨[⟨.orders, e⟩], he, by simp⟩

theorem runStep_error_record (lenv : LoadEnv) (env : ExtractEnv)
    (st : RunState) (file : String) (k : EntityKind) (msg : String)
    (hr : routeFile file = some k) (he : env file = .error msg) :
    (runStep lenv env st file).records =
      st.records ++ [⟨k, errorStatsEntry msg⟩] := by
  unfold runStep
  rw [hr]
  cases k with
  | customers => simp [processCustomersFile, processCustomersFileRaw, he]
  | products => simp [processProductsFile, processProductsFileRaw, he]
  | orders => simp [processOrdersFile, processOrdersFileRaw, he]

theorem runFold_records_kinds (lenv : LoadEnv) (env : ExtractEnv) :
    ∀ (files : List String) (st : RunState),
      ((files.foldl (runStep lenv env) st).records).map (fun fr => fr.kind) =
        st.records.map (fun fr => fr.kind) ++ files.filterMap routeFile := by
  intro files
  induction files with
  | nil => intro st; simp
  | cons f rest ih =>
    intro st
    rw [List.foldl_cons, ih]
    obtain ⟨tail, h1, h2⟩ := runStep_records lenv env st f
    rw [h1, List.map_append, h2]
    cases hr : routeFile f <;>
      simp [hr, List.filterMap_cons]

theorem runFold_records_prefix (lenv : LoadEnv) (env : ExtractEnv) :
    ∀ (files : List String) (st : RunState),
      ∃ tail, ((files.foldl (runStep lenv env) st).records) =
        st.records ++ tail := by
  intro files
  induction files with
  | nil => intro st; exact ⟨[], by simp⟩
  | cons f rest ih =>
    intro st
    obtain ⟨t1, h1, _⟩ := runStep_records lenv env st f
    obtain ⟨t2, h2⟩ := ih (runStep lenv env st f)
    rw [List.foldl_cons] at *
    exact ⟨t1 ++ t2, by rw [h2, h1, List.append_assoc]⟩

theorem runFold_error_at (lenv : LoadEnv) (env : ExtractEnv) :
    ∀ (files : List String) (st : RunState) (i : Nat) (f : String)
      (k : EntityKind) (msg : String),
      (routedFiles files).get? i = some (f, k) → env f = .error msg →
      ((files.foldl (runStep lenv env) st).records).get?
          (st.records.length + i) = some ⟨k, errorStatsEntry msg⟩ := by
  intro files
  induction files with
  | nil => intro st i f k msg h _; simp [routedFiles] at h
  | cons f0 rest ih =>
    intro st i f k msg h he
    rw [List.foldl_cons]
    cases hr : routeFile f0 with
    | none =>
      have hroute : routedFiles (f0 :: rest) = routedFiles rest := by
        simp [routedFiles, List.filterMap_cons, hr]
      rw [hroute] at h
      have hst : runStep lenv env st f0 = st := by simp [runStep, hr]
      rw [hst]
      exact ih st i f k msg h he
    | some k0 =>
      have hroute : routedFiles (f0 :: rest) =
          (f0, k0) :: routedFiles rest := by
        simp [routedFiles, List.filterMap_cons, hr]
      rw [hroute] at h
      obtain ⟨t1, h1, hk1⟩ := runStep_records lenv env st f0
      have hlen : (runStep lenv env st f0).records.length =
          st.records.length + 1 := by
        rw [h1, List.length_append]
        have : t1.length = 1 := by
          have := congrArg List.length hk1
          simpa [hr] using this
        omega
      cases i with
      | zero =>
        simp only [List.get?_cons_zero, Option.some_inj, Prod.mk.injEq] at h
        obtain ⟨hf, hk⟩ := h
        subst hf
        subst hk
        have hrec := runStep_error_record lenv env st f0 k0 msg hr he
        obtain ⟨t2, h2⟩ := runFold_records_prefix lenv env rest
          (runStep lenv env st f0)
        rw [h2, hrec, List.append_assoc]
        rw [List.get?_append_right (Nat.le_add_right _ 0)]
        simp
      | succ j =>
        rw [List.get?_cons_succ] at h
        have := ih (runStep lenv env st f0) j f k msg h he
        rw [hlen] at this
        have harith : st.records.length + 1 + j =
            st.records.length + (j + 1) := by omega
        rw [harith] at this
        exact this

/-- C8: every discovered file is routed and attempted in order regardless
of earlier failures — the run's record sequence covers exactly the routed
files — and at every file whose processing raises, the orchestrator
records the caught-exception statistics entry (whose total_processed
reads 0) for that file's entity type in that file's position.  No
exception aborts the rest of the run. -/
theorem orchestrator_isolates_file_failures (lenv : LoadEnv)
    (env : ExtractEnv) (files : List String) :
    ((runEtlPipeline lenv env files).records).map (fun fr => fr.kind) =
      files.filterMap routeFile ∧
    (∀ (i : Nat) (f : String) (k : EntityKind) (msg : String),
      (routedFiles files).get? i = some (f, k) → env f = .error msg →
      ((runEtlPipeline lenv env files).records).get? i =
        some ⟨k, errorStatsEntry msg⟩) ∧
    (∀ msg, alook "total_processed" (errorStatsEntry msg) =
      some (.n 0)) := by
  refine ⟨?_, ?_, fun msg => rfl⟩
  · have h := runFold_records_kinds lenv env files initialRunState
    simpa [runEtlPipeline, initialRunState] using h
  · intro i f k msg h he
    have h2 := runFold_error_at lenv env files initialRunState i f k msg h he
    simpa [runEtlPipeline, initialRunState] using h2

/-- Load environment with empty dictionaries and permissive creation
boundaries, for closed evaluations. -/
def lenvTrivial : LoadEnv :=
  ⟨[], [], [], fun _ _ => true, fun _ _ => true, fun _ _ _ => true⟩

/-- Closed instance of the C8 theorem: with every extraction failing, a
two-file run still records both files, and the failing customers file
gets the zero-processed error entry in position. -/
theorem orchestrator_isolates_file_failures_witness :
    ((runEtlPipeline lenvTrivial (fun _ => .error "boom")
        ["customers.csv", "orders.csv"]).records).map (fun fr => fr.kind) =
      [.customers, .orders] ∧
    ((runEtlPipeline lenvTrivial (fun _ => .error "boom")
        ["customers.csv", "orders.csv"]).records).get? 0 =
      some ⟨.customers, errorStatsEntry "boom"⟩ ∧
    alook "total_processed" (errorStatsEntry "boom") = some (.n 0) := by
  have h := orchestrator_isolates_file_failures lenvTrivial
    (fun _ => .error "boom") ["customers.csv", "orders.csv"]
  refine ⟨h.1.trans (by decide), ?_, h.2.2 "boom"⟩
  exact h.2.1 0 "customers.csv" .customers "boom" (by decide) rfl

/-- C5 counterexample: a run whose discovered list holds an orders file
before a customers file processes the orders file first — the record
sequence starts with orders — refuting that orders are never processed
before customers in the same run. -/
theorem orders_processed_before_customers_at_listing :
    ((runEtlPipeline lenvTrivial (fun _ => .ok [])
        ["orders_2024.csv", "customers_2024.csv"]).records).map
          (fun fr => fr.kind) = [.orders, .customers] ∧
    ordersBeforeCustomers
      (((runEtlPipeline lenvTrivial (fun _ => .ok [])
        ["orders_2024.csv", "customers_2024.csv"]).records).map
          (fun fr => fr.kind)) = true := by
  constructor <;> decide

/-- C5 amended: the orchestrator processes the discovered files strictly
in discovery order, so whenever no order-routed file precedes a
customer-routed file in the discovered list, no orders file is processed
before a customers file in the run. -/
theorem orders_not_before_customers_of_discovery_order (lenv : LoadEnv)
    (env : ExtractEnv) (files : List String)
    (h : ordersBeforeCustomers (files.filterMap routeFile) = false) :
    ordersBeforeCustomers
      (((runEtlPipeline lenv env files).records).map (fun fr => fr.kind)) =
      false := by
  have hk := runFold_records_kinds lenv env files initialRunState
  simp only [runEtlPipeline, initialRunState] at hk ⊢
  rw [hk]
  simpa using h

/-- Closed instance of the amended C5 theorem on a customers-then-orders
listing. -/
theorem orders_not_before_customers_of_discovery_order_witness :
    ordersBeforeCustomers
      (["customers_a.csv", "orders_b.csv"].filterMap routeFile) = false ∧
    ordersBeforeCustomers
      (((runEtlPipeline lenvTrivial (fun _ => .ok [])
        ["customers_a.csv", "orders_b.csv"]).records).map
          (fun fr => fr.kind)) = false :=
  ⟨by decide, orders_not_before_customers_of_discovery_order lenvTrivial
    (fun _ => .ok []) ["customers_a.csv", "orders_b.csv"] (by decide)⟩

/-- Two-row customers frame: the first row valid, the second rejected for
its blank email. -/
def c1Rows : List Row :=
  [[("full_name", Val.str "Иван Иванов"), ("email", Val.str "ivan@mail.ru"),
    ("phone", Val.str "+71234567890"),
    ("address", Val.str "Москва, Тверская 1")],
   [("full_name", Val.str "Пётр Петров"), ("email", Val.str ""),
    ("phone", Val.str "+71234567891"),
    ("address", Val.str "Москва, Тверская 2")]]

/-- Run state after processing the two-row customers file on a fresh
store. -/
def c1State : RunState :=
  processCustomersFile lenvTrivial (fun _ => .ok c1Rows) "customers.csv"
    initialRunState

/-- Statistics entry that run recorded. -/
def c1Entry : List (String × StatVal) :=
  ((c1State.records.head?).map (fun fr => fr.entry)).getD []

/-- C1: at a two-row customers file with one valid and one rejected row,
the recorded statistics entry is NOT conserved: the **load_stats
expansion overwrites the total_processed key with the loader's count of
valid rows, so the entry reads valid_records = 1, error_records = 1,
total_processed = 1 — although the transformer did partition all 2
extracted rows, as the orchestrator's own overwritten
total_processed = len(raw_data) records. -/
theorem customers_stats_entry_conservation_violated :
    alook "valid_records" c1Entry = some (.n 1) ∧
    alook "error_records" c1Entry = some (.n 1) ∧
    alook "total_processed" c1Entry = some (.n 1) ∧
    (transformCustomerData c1Rows).1.length +
      (transformCustomerData c1Rows).2.length = 2 := by
  refine ⟨?_, ?_, ?_, ?_⟩ <;> decide

end OzonEtl
